import Mathlib

/-!
Verification development for the robonomics utility scripts:
two rosbag generator scripts (genbag_string.py, genbag_twist.py) and a
single-topic MQTT subscriber (mqttc.py).

The bag scripts are embedded as a list of planned write calls executed
under exception semantics (a failure oracle says which write call, if any,
raises); the try/finally block appends exactly one close event on every
path.  Timestamps are embedded as exact rationals: rospy.Time.from_sec is
modelled as the identity on rational seconds (the float literals 0.1 and
0.01 are read as the exact rationals 1/10 and 1/100 they denote in the
source text).
-/

namespace Ros

/-- Seconds, as exact rationals. -/
abbrev Time := ℚ

/-- Models rospy.Time.from_sec: exact rational seconds. -/
def Time.from_sec (s : ℚ) : Time := s

/-- Models geometry_msgs Vector3: three float fields, here exact rationals.
Vector3() with no arguments yields the zero vector. -/
structure Vector3 where
  x : ℚ
  y : ℚ
  z : ℚ
deriving DecidableEq

/-- Models geometry_msgs Twist: linear and angular velocity vectors. -/
structure Twist where
  linear : Vector3
  angular : Vector3
deriving DecidableEq

/-- Models std_msgs String: a single data field. -/
structure StringMsg where
  data : String
deriving DecidableEq

/-- A message value written to a bag: either a std_msgs String or a Twist. -/
inductive Msg where
  | str (s : StringMsg)
  | twist (t : Twist)
deriving DecidableEq

/-- One bag.write call: topic, message, timestamp. -/
structure WriteRec where
  topic : String
  msg : Msg
  t : Time
deriving DecidableEq

/-- An observable action on the bag handle. -/
inductive Event where
  | write (w : WriteRec)
  | close
deriving DecidableEq

/-- Execute the planned write calls of a try block under a failure oracle:
fails k = true means the k-th write call raises (producing no write event
and abandoning the rest of the block).  Returns the events performed and
whether an exception was raised. -/
def runWrites (fails : ℕ → Bool) : List WriteRec → ℕ → List Event × Bool
  | [], _ => ([], false)
  | w :: ws, k =>
    if fails k then ([], true)
    else
      let rest := runWrites fails ws (k + 1)
      (Event.write w :: rest.1, rest.2)

/-- A bag script: try (the writes) finally (bag.close()).  The close event
is appended on every path, after the writes that happened. -/
def runScript (fails : ℕ → Bool) (ws : List WriteRec) : List Event × Bool :=
  let body := runWrites fails ws 0
  (body.1 ++ [Event.close], body.2)

/-- The write records carried by the write events of a trace. -/
def writesOf : List Event → List WriteRec
  | [] => []
  | Event.write w :: es => w :: writesOf es
  | Event.close :: es => writesOf es

/-- The oracle of a run in which no write call raises. -/
def noFail : ℕ → Bool := fun _ => false

lemma runWrites_noFail (ws : List WriteRec) (k : ℕ) :
    runWrites noFail ws k = (ws.map Event.write, false) := by
  induction ws generalizing k with
  | nil => rfl
  | cons w ws ih => simp [runWrites, noFail, ih]

lemma writesOf_map_write (ws : List WriteRec) :
    writesOf (ws.map Event.write) = ws := by
  induction ws with
  | nil => rfl
  | cons w ws ih => simp [writesOf, ih]

lemma writesOf_append (es fs : List Event) :
    writesOf (es ++ fs) = writesOf es ++ writesOf fs := by
  induction es with
  | nil => rfl
  | cons e es ih => cases e <;> simp [writesOf, ih]

/-- On a run with no failures, the bag receives exactly the planned writes. -/
lemma runScript_noFail_writes (ws : List WriteRec) :
    writesOf (runScript noFail ws).1 = ws := by
  simp [runScript, runWrites_noFail, writesOf_append, writesOf_map_write, writesOf]

lemma close_not_mem_runWrites (fails : ℕ → Bool) (ws : List WriteRec) (k : ℕ) :
    Event.close ∉ (runWrites fails ws k).1 := by
  induction ws generalizing k with
  | nil => simp [runWrites]
  | cons w ws ih =>
    simp only [runWrites]
    split
    · simp
    · simp only [List.mem_cons, not_or]
      exact ⟨fun h => Event.noConfusion h, ih (k + 1)⟩

lemma getLast?_append_single {α : Type} (l : List α) (a : α) :
    (l ++ [a]).getLast? = some a := by
  induction l with
  | nil => rfl
  | cons b l ih =>
    cases hl : l ++ [a] with
    | nil => simp at hl
    | cons c cs =>
      rw [List.cons_append, hl, List.getLast?_cons_cons, ← hl, ih]

/-- The close event happens exactly once and is the last event, for every
failure oracle and every planned write list. -/
lemma runScript_close (fails : ℕ → Bool) (ws : List WriteRec) :
    (runScript fails ws).1.count Event.close = 1 ∧
      (runScript fails ws).1.getLast? = some Event.close := by
  constructor
  · rw [runScript, List.count_append]
    have h0 : (runWrites fails ws 0).1.count Event.close = 0 :=
      List.count_eq_zero.mpr (close_not_mem_runWrites fails ws 0)
    simp [h0]
  · exact getLast?_append_single _ _

end Ros

namespace GenbagTwist

open Ros

/-- msg1 = Twist(Vector3(), Vector3()): the zero-velocity message. -/
def msg1 : Twist := ⟨⟨0, 0, 0⟩, ⟨0, 0, 0⟩⟩

/-- msg2 = Twist(Vector3(2, 0, 0), Vector3(0, 0, 2)). -/
def msg2 : Twist := ⟨⟨2, 0, 0⟩, ⟨0, 0, 2⟩⟩

/-- The planned write calls of genbag_twist.py, in order: msg1 at t=0, then
msg2 at t = 1 + 0.01*i for i in range(0, 239), then msg1 at t=5, all on
topic /turtle1/cmd_vel. -/
def twistProgram : List WriteRec :=
  ⟨"/turtle1/cmd_vel", Msg.twist msg1, Time.from_sec 0⟩ ::
    ((List.range 239).map
      (fun i => ⟨"/turtle1/cmd_vel", Msg.twist msg2, Time.from_sec (1 + (1 / 100) * i)⟩)
      ++ [⟨"/turtle1/cmd_vel", Msg.twist msg1, Time.from_sec 5⟩])

/-- The sequence of writes the twist bag receives on a failure-free run. -/
def twistBag : List WriteRec := writesOf (runScript noFail twistProgram).1

lemma twistBag_eq : twistBag = twistProgram := runScript_noFail_writes _

lemma twistProgram_length : twistProgram.length = 241 := by
  simp [twistProgram]

lemma twistProgram_get_zero :
    twistProgram[0]? = some ⟨"/turtle1/cmd_vel", Msg.twist msg1, 0⟩ := by
  rw [twistProgram, List.getElem?_cons_zero]
  rfl

lemma twistProgram_get_mid (i : ℕ) (h : i < 239) :
    twistProgram[i + 1]? =
      some ⟨"/turtle1/cmd_vel", Msg.twist msg2, 1 + (1 / 100) * (i : ℚ)⟩ := by
  rw [twistProgram, List.getElem?_cons_succ, List.getElem?_append,
    if_pos (by simpa using h), List.getElem?_map, List.getElem?_range h]
  rfl

lemma twistProgram_get_last :
    twistProgram[240]? = some ⟨"/turtle1/cmd_vel", Msg.twist msg1, 5⟩ := by
  rw [twistProgram, List.getElem?_cons_succ, List.getElem?_append_right (by simp)]
  simp [Time.from_sec]

end GenbagTwist

namespace GenbagString

open Ros

/-- msg = String(data=...): the single string message of genbag_string.py. -/
def msg : StringMsg := ⟨"Dear turtle, please make a circle. Thanks!"⟩

/-- The planned write calls of genbag_string.py: one write of msg on topic
/turtle1/cmd at t = 0.1 s. -/
def stringProgram : List WriteRec :=
  [⟨"/turtle1/cmd", Msg.str msg, Time.from_sec (1 / 10)⟩]

/-- The sequence of writes the string bag receives on a failure-free run. -/
def stringBag : List WriteRec := writesOf (runScript noFail stringProgram).1

lemma stringBag_eq : stringBag = stringProgram := runScript_noFail_writes _

end GenbagString

namespace Py

/-- The single-quote character (codepoint 39). -/
def squote : Char := Char.ofNat 39

/-- The double-quote character (codepoint 34). -/
def dquote : Char := Char.ofNat 34

/-- Lower-case hex digit for a value below 16. -/
def hexDigit (n : ℕ) : Char :=
  if n < 10 then Char.ofNat (48 + n) else Char.ofNat (87 + n)

/-- How CPython bytes.__repr__ renders one byte, given the chosen quote
character: the quote character and backslash are backslash-escaped, tab,
newline and carriage return use their two-character escapes, other bytes
outside the printable range 0x20..0x7e become a hex escape, and printable
bytes stand for themselves. -/
def escByte (q : Char) (c : Char) : List Char :=
  if c = q ∨ c = Char.ofNat 92 then [Char.ofNat 92, c]
  else if c = Char.ofNat 9 then [Char.ofNat 92, Char.ofNat 116]
  else if c = Char.ofNat 10 then [Char.ofNat 92, Char.ofNat 110]
  else if c = Char.ofNat 13 then [Char.ofNat 92, Char.ofNat 114]
  else if c.toNat < 32 ∨ 127 ≤ c.toNat then
    [Char.ofNat 92, Char.ofNat 120, hexDigit (c.toNat / 16 % 16), hexDigit (c.toNat % 16)]
  else [c]

/-- CPython quote choice for bytes.__repr__: single quote, unless the bytes
contain a single quote and no double quote, in which case double quote. -/
def reprQuote (p : List Char) : Char :=
  if squote ∈ p ∧ dquote ∉ p then dquote else squote

/-- Models str(b) for a bytes value b, i.e. CPython bytes.__repr__:
the letter b, the chosen quote, the escaped bytes, the closing quote.
Payload bytes are carried as characters with their byte value. -/
def pyBytesRepr (p : List Char) : List Char :=
  let q := reprQuote p
  Char.ofNat 98 :: q :: (p.foldr (fun c acc => escByte q c ++ acc) [] ++ [q])

/-- A byte needing no escape under the single-quote choice: printable
ASCII, not a backslash, not a single quote. -/
def plainByte (c : Char) : Prop :=
  32 ≤ c.toNat ∧ c.toNat ≤ 126 ∧ c ≠ Char.ofNat 92 ∧ c.toNat ≠ 39

instance (c : Char) : Decidable (plainByte c) := by
  unfold plainByte; infer_instance

lemma escByte_plain (c : Char) (h : plainByte c) : escByte squote c = [c] := by
  obtain ⟨h1, h2, h3, h4⟩ := h
  have hq : c ≠ squote := by
    intro e
    exact h4 (by rw [e]; rfl)
  have h9 : c ≠ Char.ofNat 9 := by
    intro e
    rw [e] at h1
    exact absurd h1 (by decide)
  have h10 : c ≠ Char.ofNat 10 := by
    intro e
    rw [e] at h1
    exact absurd h1 (by decide)
  have h13 : c ≠ Char.ofNat 13 := by
    intro e
    rw [e] at h1
    exact absurd h1 (by decide)
  have hr : ¬(c.toNat < 32 ∨ 127 ≤ c.toNat) := by omega
  simp [escByte, squote] at hq ⊢
  simp [hq, h3, h9, h10, h13, hr]

lemma reprQuote_plain (p : List Char) (h : ∀ c ∈ p, plainByte c) :
    reprQuote p = squote := by
  rw [reprQuote, if_neg]
  rintro ⟨hs, -⟩
  exact (h squote hs).2.2.2 rfl

lemma foldr_esc_plain (p : List Char) (h : ∀ c ∈ p, plainByte c) :
    p.foldr (fun c acc => escByte squote c ++ acc) [] = p := by
  induction p with
  | nil => rfl
  | cons c cs ih =>
    rw [List.foldr_cons, escByte_plain c (h c (by simp)),
      ih (fun d hd => h d (by simp [hd]))]
    rfl

/-- For payloads of plain bytes, str(payload) is exactly b, quote, the
payload itself, quote. -/
lemma pyBytesRepr_plain (p : List Char) (h : ∀ c ∈ p, plainByte c) :
    pyBytesRepr p = Char.ofNat 98 :: squote :: (p ++ [squote]) := by
  rw [pyBytesRepr]
  simp only [reprQuote_plain p h, foldr_esc_plain p h]

end Py

namespace Mqtt

/-- A dynamically typed Python value, as far as this script needs: the
default port is the int 1883, but a command-line port stays a string. -/
inductive PyVal where
  | int (n : ℤ)
  | str (s : String)
deriving DecidableEq

/-- An observable action the script performs on the MQTT client or on
standard output. -/
inductive ClientAction where
  | printLine (s : String)
  | subscribe (topic : String)
  | connect (host : String) (port : PyVal) (keepalive : ℕ)
  | loopForever
deriving DecidableEq

/-- The on_connect callback of mqttc.py: print the result code, then
subscribe to the hard-coded topic, whatever rc is. -/
def on_connect (rc : ℤ) : List ClientAction :=
  [ClientAction.printLine ("Connected with result code " ++ toString rc),
   ClientAction.subscribe "digitaltwin"]

/-- The line printed by the on_message callback: the concatenation
"at topic" + msg.topic + " data: " + str(msg.payload), where the payload
is a bytes value rendered by CPython bytes.__repr__. -/
def onMessageLine (topic payload : String) : List Char :=
  "at topic".data ++ topic.data ++ " data: ".data ++ Py.pyBytesRepr payload.data

/-- The on_message callback of mqttc.py: a single print of the formatted
topic and payload; nothing is parsed or validated. -/
def on_message (topic payload : String) : List ClientAction :=
  [ClientAction.printLine (String.mk (onMessageLine topic payload))]

/-- Host and port selection from sys.argv (argv includes the program name
at index 0), mirroring the two if-statements of mqttc.py: defaults
localhost / int 1883, argv[1] overrides the host when present, and when
argv[2] is also present the host is argv[1] and the port the raw string
argv[2]. -/
def mqttcConfig (argv : List String) : String × PyVal :=
  let srv0 : String := "localhost"
  let port0 : PyVal := PyVal.int 1883
  let srv1 : String := if 1 < argv.length then argv.getD 1 srv0 else srv0
  let srv2 : String := if 2 < argv.length then argv.getD 1 srv1 else srv1
  let port2 : PyVal := if 2 < argv.length then PyVal.str (argv.getD 2 "") else port0
  (srv2, port2)

/-- The top-level actions of mqttc.py after callback registration:
connect(host, port, 60) then loop_forever(). -/
def mqttcMain (argv : List String) : List ClientAction :=
  [ClientAction.connect (mqttcConfig argv).1 (mqttcConfig argv).2 60,
   ClientAction.loopForever]

/-- Is an action a subscribe call? -/
def isSubscribeAct : ClientAction → Bool
  | ClientAction.subscribe _ => true
  | _ => false

/-- Erase printed text, keeping the action structure: used to state that
rc influences nothing but the printed line. -/
def eraseText : ClientAction → ClientAction
  | ClientAction.printLine _ => ClientAction.printLine ""
  | a => a

end Mqtt

namespace Mqtt

lemma mqttcConfig_zero_args (prog : String) :
    mqttcConfig [prog] = ("localhost", PyVal.int 1883) := rfl

lemma mqttcConfig_one_arg (prog h : String) :
    mqttcConfig [prog, h] = (h, PyVal.int 1883) := rfl

lemma mqttcConfig_two_args (prog h p : String) (rest : List String) :
    mqttcConfig (prog :: h :: p :: rest) = (h, PyVal.str p) := by
  have h1 : 1 < (prog :: h :: p :: rest).length := by
    simp only [List.length_cons]
    omega
  have h2 : 2 < (prog :: h :: p :: rest).length := by
    simp only [List.length_cons]
    omega
  simp only [mqttcConfig, if_pos h1, if_pos h2]
  rfl

end Mqtt

namespace GenbagTwist

open Ros

/-- The timestamps supplied across the twist generator writes, in order. -/
def twistTimes : List ℚ := twistBag.map WriteRec.t

lemma twistTimes_eq :
    twistTimes =
      0 :: ((List.range 239).map (fun i : ℕ => 1 + (1 / 100) * (i : ℚ)) ++ [5]) := by
  rw [twistTimes, twistBag_eq, twistProgram, List.map_cons, List.map_append,
    List.map_map]
  rfl

lemma twistTimes_pairwise : twistTimes.Pairwise (· < ·) := by
  rw [twistTimes_eq, List.pairwise_cons]
  constructor
  · intro b hb
    rcases List.mem_append.mp hb with hb | hb
    · obtain ⟨i, hi, rfl⟩ := List.mem_map.mp hb
      have hc : (0 : ℚ) ≤ (i : ℚ) := Nat.cast_nonneg i
      linarith
    · have hb5 : b = 5 := by simpa using hb
      rw [hb5]
      norm_num
  · rw [List.pairwise_append]
    refine ⟨?_, by simp, ?_⟩
    · rw [List.pairwise_map]
      refine List.Pairwise.imp ?_ (List.pairwise_lt_range 239)
      intro a b hab
      have hc : (a : ℚ) < (b : ℚ) := by exact_mod_cast hab
      linarith
    · intro a ha b hb
      have hb5 : b = 5 := by simpa using hb
      obtain ⟨i, hi, rfl⟩ := List.mem_map.mp ha
      have hi2 : (i : ℚ) < 239 := by exact_mod_cast List.mem_range.mp hi
      rw [hb5]
      linarith

lemma twistTimes_get_239 : twistTimes[239]? = some (338 / 100) := by
  rw [twistTimes_eq, show (239 : ℕ) = 238 + 1 from rfl, List.getElem?_cons_succ,
    List.getElem?_append, if_pos (by simp), List.getElem?_map,
    List.getElem?_range (by norm_num)]
  norm_num

end GenbagTwist

open Ros GenbagTwist GenbagString Mqtt Py

/-- C1: Running the twist bag generator (on the run where no write raises)
writes exactly 241 messages to topic /turtle1/cmd_vel, in this order: one
zero-velocity Twist at t = 0, then Twist(linear=(2,0,0), angular=(0,0,2))
at t = 1 + 0.01*i for each i = 0..238, then one zero-velocity Twist at
t = 5. -/
theorem C1_twist_bag_contents :
    twistBag.length = 241 ∧
    twistBag[0]? = some ⟨"/turtle1/cmd_vel", Msg.twist ⟨⟨0, 0, 0⟩, ⟨0, 0, 0⟩⟩, 0⟩ ∧
    (∀ i : Fin 239,
      twistBag[(i : ℕ) + 1]? =
        some ⟨"/turtle1/cmd_vel", Msg.twist ⟨⟨2, 0, 0⟩, ⟨0, 0, 2⟩⟩,
          1 + (1 / 100) * ((i : ℕ) : ℚ)⟩) ∧
    twistBag[240]? = some ⟨"/turtle1/cmd_vel", Msg.twist ⟨⟨0, 0, 0⟩, ⟨0, 0, 0⟩⟩, 5⟩ := by
  refine ⟨?_, ?_, ?_, ?_⟩
  · rw [twistBag_eq]
    exact twistProgram_length
  · rw [twistBag_eq]
    exact twistProgram_get_zero
  · intro i
    rw [twistBag_eq]
    exact twistProgram_get_mid (i : ℕ) i.isLt
  · rw [twistBag_eq]
    exact twistProgram_get_last

/-- C2: Subscriber CLI handling: no positional arguments gives host
localhost and port 1883; one positional argument overrides the host only;
two or more positional arguments give host argv[1] and port argv[2]. -/
theorem C2_subscriber_cli_defaults (prog h p : String) (rest : List String) :
    mqttcConfig [prog] = ("localhost", PyVal.int 1883) ∧
    mqttcConfig [prog, h] = (h, PyVal.int 1883) ∧
    mqttcConfig (prog :: h :: p :: rest) = (h, PyVal.str p) :=
  ⟨mqttcConfig_zero_args prog, mqttcConfig_one_arg prog h,
    mqttcConfig_two_args prog h p rest⟩

/-- C3: For each bag-writer script and every failure oracle (any write
call may raise), bag.close() happens exactly once and is the last event
of the trace. -/
theorem C3_close_on_every_path (fails : ℕ → Bool) :
    ((runScript fails twistProgram).1.count Event.close = 1 ∧
      (runScript fails twistProgram).1.getLast? = some Event.close) ∧
    ((runScript fails stringProgram).1.count Event.close = 1 ∧
      (runScript fails stringProgram).1.getLast? = some Event.close) :=
  ⟨runScript_close fails twistProgram, runScript_close fails stringProgram⟩

/-- C4: Running the string bag generator (on the run where no write
raises) writes exactly one message: the String payload addressed to the
turtle, on topic /turtle1/cmd, at t = 0.1 s. -/
theorem C4_string_bag_contents :
    stringBag =
      [⟨"/turtle1/cmd",
        Msg.str ⟨"Dear turtle, please make a circle. Thanks!"⟩, 1 / 10⟩] := by
  rw [stringBag_eq]
  rfl

/-- C5: Each invocation of on_connect performs exactly one subscribe call,
to the hard-coded topic digitaltwin; neither on_message nor the script
top level ever subscribes. -/
theorem C5_subscribe_exactly_once :
    (∀ rc : ℤ,
      (on_connect rc).filter isSubscribeAct = [ClientAction.subscribe "digitaltwin"]) ∧
    (∀ topic payload : String,
      (on_message topic payload).filter isSubscribeAct = []) ∧
    (∀ argv : List String, (mqttcMain argv).filter isSubscribeAct = []) :=
  ⟨fun _ => rfl, fun _ _ => rfl, fun _ => rfl⟩

/-- C7: No message value is mutated after construction: every write the
twist bag receives carries either msg1 or msg2 exactly as constructed (the
239 middle writes are field-for-field the constructed msg2), and the
string bag receives msg exactly as constructed. -/
theorem C7_messages_unchanged :
    (∀ i : Fin 239,
      (twistBag[(i : ℕ) + 1]?).map WriteRec.msg = some (Msg.twist msg2)) ∧
    (twistBag[0]?).map WriteRec.msg = some (Msg.twist msg1) ∧
    (twistBag[240]?).map WriteRec.msg = some (Msg.twist msg1) ∧
    stringBag.map WriteRec.msg = [Msg.str GenbagString.msg] := by
  refine ⟨?_, ?_, ?_, ?_⟩
  · intro i
    rw [twistBag_eq, twistProgram_get_mid (i : ℕ) i.isLt]
    rfl
  · rw [twistBag_eq, twistProgram_get_zero]
    rfl
  · rw [twistBag_eq, twistProgram_get_last]
    rfl
  · rw [stringBag_eq]
    rfl

/-- C8: With a second positional argument present, the port value handed
to connect is the raw command-line string argv[2] itself: no integer
conversion, no range validation. -/
theorem C8_port_stays_raw_string (prog h p : String) (rest : List String) :
    mqttcMain (prog :: h :: p :: rest) =
      [ClientAction.connect h (PyVal.str p) 60, ClientAction.loopForever] := by
  rw [mqttcMain, mqttcConfig_two_args]

/-- C9: The timestamps supplied across the twist generator writes are
strictly increasing (0, then 1 + 0.01*i for i = 0..238, then 5), the last
middle timestamp being 3.38. -/
theorem C9_timestamps_strictly_increasing :
    twistTimes.Pairwise (· < ·) ∧ twistTimes[239]? = some (338 / 100) :=
  ⟨twistTimes_pairwise, twistTimes_get_239⟩

/-- C10: on_connect subscribes to digitaltwin for every result code rc,
zero or not, and rc influences nothing but the printed text: the action
structure is identical across all rc values. -/
theorem C10_subscribe_for_every_rc :
    (∀ rc : ℤ, ClientAction.subscribe "digitaltwin" ∈ on_connect rc) ∧
    (∀ rc1 rc2 : ℤ,
      (on_connect rc1).map eraseText = (on_connect rc2).map eraseText) := by
  refine ⟨fun rc => ?_, fun rc1 rc2 => rfl⟩
  simp [on_connect]

/-- C6 as frozen is false: the message callback prints
"at topic" + topic + " data: " + str(payload), and str of a bytes payload
escapes control characters, so the raw payload need not appear in the
output.  Concretely, for topic "t" and the one-byte payload 0x0A
(newline), the printed line renders the payload as backslash-n and does
not contain the newline character, hence no substring decomposition
exists. -/
theorem C6_counterexample :
    ¬ ∃ l r : List Char,
        onMessageLine "t" (String.mk [Char.ofNat 10]) =
          l ++ (String.mk [Char.ofNat 10]).data ++ r := by
  rintro ⟨l, r, hw⟩
  have hm : Char.ofNat 10 ∈ onMessageLine "t" (String.mk [Char.ofNat 10]) := by
    rw [hw]
    simp
  revert hm
  decide

/-- C6 amended: for every received message (any topic, any payload) the
callback performs a single print whose line contains the topic as a
substring; the line moreover contains the payload as a substring whenever
every payload byte is printable ASCII (0x20..0x7e) other than backslash
and single quote; the payload is not parsed or validated (it is passed
whole to the formatter).  (The original claim, payload always a
substring, fails for payloads that Python bytes repr escapes, e.g. a
newline byte.) -/
theorem C6_print_topic_and_payload (topic payload : String) :
    on_message topic payload =
      [ClientAction.printLine (String.mk (onMessageLine topic payload))] ∧
    (∃ l r : List Char, onMessageLine topic payload = l ++ topic.data ++ r) ∧
    ((∀ c ∈ payload.data, Py.plainByte c) →
      ∃ l r : List Char, onMessageLine topic payload = l ++ payload.data ++ r) := by
  refine ⟨rfl, ?_, fun hp => ?_⟩
  · refine ⟨"at topic".data, " data: ".data ++ Py.pyBytesRepr payload.data, ?_⟩
    rw [onMessageLine]
    simp [List.append_assoc]
  · refine ⟨"at topic".data ++ topic.data ++ " data: ".data ++
      [Char.ofNat 98, Py.squote], [Py.squote], ?_⟩
    rw [onMessageLine, Py.pyBytesRepr_plain payload.data hp]
    simp [List.append_assoc]

theorem C6_print_topic_and_payload_witness :
    on_message "turtle" "hello" =
      [ClientAction.printLine (String.mk (onMessageLine "turtle" "hello"))] ∧
    (∃ l r : List Char, onMessageLine "turtle" "hello" = l ++ "turtle".data ++ r) ∧
    (∃ l r : List Char, onMessageLine "turtle" "hello" = l ++ "hello".data ++ r) :=
  ⟨(C6_print_topic_and_payload "turtle" "hello").1,
    (C6_print_topic_and_payload "turtle" "hello").2.1,
    (C6_print_topic_and_payload "turtle" "hello").2.2 (by decide)⟩
